import Mathlib

/-!
# Verification of the polaris authentication and scoped-authorization core

Shallow embedding of `src/app/user.rs` (account manager, password hashing,
branca token wrapper) and of the admin request guard from `src/rocket_api.rs`.

Modelling conventions:
* Database state is a `Manager` value holding the `users` table and the auth
  secret; every operation is a pure function over it (state passing).
  Connecting to the database is modelled as always succeeding; storage errors
  other than those produced by the code's own logic are out of the model.
* Wall-clock time is an explicit `now : Nat` argument (seconds since epoch).
* The external `pbkdf2`/`password-hash` crates and the `branca` crate are not
  part of the repository; they are modelled from the spec (see the doc
  comments on `kdfChars`, `parsePhcChars`, `brancaDecode`).
* The spec's `SessionAuth` scope is the code's `PolarisAuth`; the spec's
  `LinkAuth` is the code's `LastFMLink`.
-/

/-- Error taxonomy of `src/app/user/error.rs` as used by `user.rs`
(the variants referenced by the code and by the spec's §7 taxonomy). -/
inductive Error where
  | EmptyUsername
  | EmptyPassword
  | IncorrectUsername
  | IncorrectPassword
  | InvalidAuthToken
  | IncorrectAuthorizationScope
  | Unspecified
  deriving DecidableEq, Repr

/-- `AuthorizationScope` from `user.rs`: `PolarisAuth` is the spec's
`SessionAuth`, `LastFMLink` is the spec's `LinkAuth`. -/
inductive AuthorizationScope where
  | PolarisAuth
  | LastFMLink
  deriving DecidableEq, Repr

/-- `Authorization { username, scope }` from `user.rs`. -/
structure Authorization where
  username : String
  scope : AuthorizationScope
  deriving DecidableEq, Repr

/-- A row of the `users` table: `User { name, password_hash, admin }`.
`admin` is an `i32` in the schema; stored values are 0 or 1. -/
structure User where
  name : String
  password_hash : String
  admin : Int
  deriving DecidableEq, Repr

/-- `User::is_admin`. -/
def User.is_admin (u : User) : Bool :=
  u.admin != 0

/-- `NewUser { name, password, admin }` from `user.rs`. -/
structure NewUser where
  name : String
  password : String
  admin : Bool
  deriving DecidableEq, Repr

/-! ## Password hashing (`hash_password` / `verify_password`)

The control flow (empty-password check, parse-failure handling, recompute and
compare) is from `user.rs`; the PBKDF2 derivation and the PHC hash-string
format live in external crates and are modelled from the spec. -/

/-- Modelled from the spec: the PHC string encoder of the external
`password-hash` crate emits salt and digest fields in an alphabet that cannot
contain the `$` field separator (base64 in the crate). We model that
guarantee by replacing any `$` with `.`. -/
def sanitizeChars (cs : List Char) : List Char :=
  cs.map fun c => if c = '$' then '.' else c

/-- Modelled from the spec: the PBKDF2-class key derivation of the external
`pbkdf2` crate, abstracted as a concrete deterministic function of password
and salt whose output is `$`-free. Its cryptographic properties are not
modelled; the claims only use determinism. -/
def kdfChars (password salt : List Char) : List Char :=
  sanitizeChars (salt ++ ':' :: password)

/-- The self-describing hash string `"$pbkdf2$<salt>$<digest>"` produced by
the modelled hasher (the crate's PHC string, with parameters folded into the
constant algorithm tag). -/
def mkPhcChars (salt digest : List Char) : List Char :=
  '$' :: 'p' :: 'b' :: 'k' :: 'd' :: 'f' :: '2' :: '$' :: (salt ++ '$' :: digest)

/-- Strips the `"$pbkdf2$"` prefix of a PHC hash string, failing on any other
shape. -/
def stripPhcPrefix : List Char → Option (List Char)
  | '$' :: 'p' :: 'b' :: 'k' :: 'd' :: 'f' :: '2' :: '$' :: rest => some rest
  | _ => none

/-- Splits a character list at its first `$`, failing when there is none. -/
def splitAtDollar : List Char → Option (List Char × List Char)
  | [] => none
  | c :: cs =>
    if c = '$' then some ([], cs)
    else
      match splitAtDollar cs with
      | some (a, b) => some (c :: a, b)
      | none => none

/-- Modelled from the spec: `PasswordHash::new` of the external
`password-hash` crate — parses a PHC hash string into its salt and digest
fields, failing (`none`) on malformed input. -/
def parsePhcChars (cs : List Char) : Option (List Char × List Char) :=
  match stripPhcPrefix cs with
  | none => none
  | some rest =>
    match splitAtDollar rest with
    | none => none
    | some (salt, digest) => if '$' ∈ digest then none else some (salt, digest)

/-- `PasswordHash::new` applied to a stored hash string. -/
def parsePasswordHash (s : String) : Option (List Char × List Char) :=
  parsePhcChars s.data

/-- `hash_password` from `user.rs`: fails with `EmptyPassword` on an empty
password, otherwise derives a self-describing hash string from a fresh salt.
The salt (generated by `OsRng` in the code) is passed explicitly. -/
def hash_password (password : String) (salt : String) : Except Error String :=
  if password.isEmpty then .error .EmptyPassword
  else
    let s := sanitizeChars salt.data
    .ok ⟨mkPhcChars s (kdfChars password.data s)⟩

/-- `verify_password` from `user.rs`: parse the stored hash, recompute the
derivation over the attempted password and compare; a malformed stored hash
verifies as `false`. -/
def verify_password (password_hash : String) (attempted_password : String) : Bool :=
  match parsePasswordHash password_hash with
  | none => false
  | some (salt, digest) => kdfChars attempted_password.data salt == digest

/-! ## Token codec (branca wrapper) -/

/-- The plaintext carried inside a branca token: either the JSON serialization
of an `Authorization` (what `generate_auth_token` produces) or some other byte
string that `serde_json::from_slice::<Authorization>` rejects. -/
inductive Payload where
  | auth (a : Authorization)
  | malformed (s : String)
  deriving DecidableEq, Repr

/-- A branca token string, viewed through the authenticated-encryption
abstraction: either an authentic ciphertext under some key, carrying its
issuance timestamp and payload, or a string that fails authentication under
every key (corrupted / truncated / random data). -/
inductive TokenData where
  | valid (key : Nat) (timestamp : Nat) (payload : Payload)
  | garbage (s : String)
  deriving DecidableEq, Repr

/-- `AuthToken(pub String)` from `user.rs`, over the token abstraction. -/
structure AuthToken where
  data : TokenData
  deriving DecidableEq, Repr

/-- `serde_json::from_slice::<Authorization>` on a decrypted payload. -/
def serdeFromSlice : Payload → Option Authorization
  | .auth a => some a
  | .malformed _ => none

/-- Modelled from the spec: `branca::decode(data, key, ttl)` of the external
`branca` crate. Decoding fails if the token does not authenticate under `key`
(corrupted, wrong key, malformed), and fails if `ttl ≠ 0` and
`now - issuedAt > ttl`; `ttl = 0` means the token never expires. -/
def brancaDecode (tok : TokenData) (key : Nat) (ttl : Nat) (now : Nat) : Option Payload :=
  match tok with
  | .garbage _ => none
  | .valid k issuedAt payload =>
    if k = key then
      if ttl ≠ 0 ∧ now - issuedAt > ttl then none else some payload
    else none

/-- Modelled from the spec: `branca::encode(payload, key, timestamp)` — an
authentic ciphertext under `key` embedding the timestamp. -/
def brancaEncode (payload : Payload) (key : Nat) (timestamp : Nat) : TokenData :=
  .valid key timestamp payload

/-! ## The authentication manager (`Manager` from `user.rs`) -/

/-- `Manager { db, auth_secret }`: the users table plus the process-wide auth
secret (the branca key, abstracted to a `Nat`). -/
structure Manager where
  users : List User
  key : Nat
  deriving DecidableEq, Repr

/-- The scope → TTL table inlined in `Manager::decode_auth_token`:
`PolarisAuth → 0` (permanent), `LastFMLink → 10 * 60` seconds. -/
def scopeTTL : AuthorizationScope → Nat
  | .PolarisAuth => 0
  | .LastFMLink => 10 * 60

/-- `Manager::decode_auth_token`: branca-decode with the TTL of the
*requested* scope, deserialize, then reject on scope mismatch. -/
def Manager.decode_auth_token (m : Manager) (auth_token : AuthToken)
    (scope : AuthorizationScope) (now : Nat) : Except Error Authorization :=
  let ttl := scopeTTL scope
  match brancaDecode auth_token.data m.key ttl now with
  | none => .error .InvalidAuthToken
  | some payload =>
    match serdeFromSlice payload with
    | none => .error .InvalidAuthToken
    | some authorization =>
      if authorization.scope ≠ scope then .error .IncorrectAuthorizationScope
      else .ok authorization

/-- `Manager::generate_auth_token`: serialize the authorization and
branca-encode it with the current timestamp (cast to `u32` in the code,
hence the modulus). JSON serialization of this type cannot fail. -/
def Manager.generate_auth_token (m : Manager) (authorization : Authorization)
    (now : Nat) : Except Error AuthToken :=
  .ok ⟨brancaEncode (.auth authorization) m.key (now % 4294967296)⟩

/-- `Manager::exists`: whether a row with this name exists. -/
def Manager.exists (m : Manager) (username : String) : Except Error Bool :=
  .ok (!(m.users.filter fun u => u.name == username).isEmpty)

/-- `Manager::authenticate` (the spec's `authorize`): decode the token under
the expected scope, then re-check that the account still exists. -/
def Manager.authenticate (m : Manager) (auth_token : AuthToken)
    (scope : AuthorizationScope) (now : Nat) : Except Error Authorization :=
  match m.decode_auth_token auth_token scope now with
  | .error e => .error e
  | .ok authorization =>
    match m.exists authorization.username with
    | .error e => .error e
    | .ok true => .ok authorization
    | .ok false => .error .IncorrectUsername

/-- `Manager::create`: empty-name check, hash the password, insert. The
`users` table's primary key is the name (per the spec's data model), so the
insert fails with `Unspecified` when the name is already present. -/
def Manager.create (m : Manager) (new_user : NewUser) (salt : String) :
    Except Error Manager :=
  if new_user.name.isEmpty then .error .EmptyUsername
  else
    match hash_password new_user.password salt with
    | .error e => .error e
    | .ok password_hash =>
      if m.users.any (fun u => u.name == new_user.name) then .error .Unspecified
      else
        .ok ⟨m.users ++
          [⟨new_user.name, password_hash, if new_user.admin then 1 else 0⟩], m.key⟩

/-- `Manager::delete`: remove every row with this name. -/
def Manager.delete (m : Manager) (username : String) : Manager :=
  ⟨m.users.filter fun u => !(u.name == username), m.key⟩

/-- `Manager::login`: look up the stored hash by name (`IncorrectUsername`
when absent), verify the password (`IncorrectPassword` when it does not
check out), and issue a `PolarisAuth` token on success. -/
def Manager.login (m : Manager) (username password : String) (now : Nat) :
    Except Error AuthToken :=
  match m.users.find? (fun u => u.name == username) with
  | none => .error .IncorrectUsername
  | some u =>
    if verify_password u.password_hash password then
      m.generate_auth_token ⟨username, .PolarisAuth⟩ now
    else .error .IncorrectPassword

/-- `Manager::count`: the number of rows in `users` (an `i64` in the code). -/
def Manager.count (m : Manager) : Int :=
  m.users.length

/-- `Manager::is_admin`: select the `admin` flag of the row with this name;
a missing row is a storage-level error mapped to `Unspecified`. -/
def Manager.is_admin (m : Manager) (username : String) : Except Error Bool :=
  match m.users.find? (fun u => u.name == username) with
  | none => .error .Unspecified
  | some u => .ok (u.admin != 0)

/-- `Manager::generate_lastfm_link_token`: a `LastFMLink`-scoped token for
the named user, with no password check. -/
def Manager.generate_lastfm_link_token (m : Manager) (username : String)
    (now : Nat) : Except Error AuthToken :=
  m.generate_auth_token ⟨username, .LastFMLink⟩ now

/-! ## The admin request guard (`AdminRights` from `rocket_api.rs`) -/

/-- A request-guard outcome: `Outcome::Success` or `Outcome::Failure(status)`.
The statuses used by `AdminRights::from_request` are `Forbidden` and
`InternalServerError`. -/
inductive GuardOutcome where
  | success
  | forbiddenFailure
  | internalErrorFailure
  deriving DecidableEq, Repr

/-- `AdminRights::from_request` from `rocket_api.rs`: if the user count is
zero the guard succeeds for any caller; otherwise it requires a session
identity (the `Auth` guard fails with `Forbidden` when the session cookie is
absent, modelled as `none`), then succeeds exactly when that identity's
`admin` flag is set, failing with `Forbidden` for a non-admin and with
`InternalServerError` when the flag lookup errors. -/
def adminRightsFromRequest (m : Manager) (sessionUsername : Option String) :
    GuardOutcome :=
  if m.count = 0 then .success
  else
    match sessionUsername with
    | none => .forbiddenFailure
    | some username =>
      match m.is_admin username with
      | .error _ => .internalErrorFailure
      | .ok true => .success
      | .ok false => .forbiddenFailure

/-! ## Helper lemmas -/

theorem sanitizeChars_not_mem_dollar (cs : List Char) : '$' ∉ sanitizeChars cs := by
  intro h
  rw [sanitizeChars, List.mem_map] at h
  obtain ⟨c, -, hc⟩ := h
  by_cases h' : c = '$' <;> simp [h'] at hc

theorem kdfChars_not_mem_dollar (p s : List Char) : '$' ∉ kdfChars p s :=
  sanitizeChars_not_mem_dollar _

theorem splitAtDollar_append (a b : List Char) (ha : '$' ∉ a) :
    splitAtDollar (a ++ '$' :: b) = some (a, b) := by
  induction a with
  | nil => simp [splitAtDollar]
  | cons c a ih =>
    have hc : ¬(c = '$') := fun h => ha (h ▸ List.mem_cons_self c a)
    have ha' : '$' ∉ a := fun h => ha (List.mem_cons_of_mem c h)
    simp only [List.cons_append, splitAtDollar, if_neg hc, List.append_eq, ih ha']

theorem parsePhcChars_mkPhcChars (salt digest : List Char)
    (hs : '$' ∉ salt) (hd : '$' ∉ digest) :
    parsePhcChars (mkPhcChars salt digest) = some (salt, digest) := by
  have h1 : parsePhcChars (mkPhcChars salt digest) =
      match splitAtDollar (salt ++ '$' :: digest) with
      | none => none
      | some (s, d) => if '$' ∈ d then none else some (s, d) := rfl
  rw [h1, splitAtDollar_append salt digest hs]
  exact if_neg hd

theorem verify_password_hash_password (password salt : String)
    (hp : ¬password.isEmpty) :
    hash_password password salt =
      .ok ⟨mkPhcChars (sanitizeChars salt.data)
            (kdfChars password.data (sanitizeChars salt.data))⟩ ∧
    verify_password
      ⟨mkPhcChars (sanitizeChars salt.data)
        (kdfChars password.data (sanitizeChars salt.data))⟩ password = true := by
  constructor
  · rw [hash_password, if_neg hp]
  · rw [verify_password, parsePasswordHash]
    have : (String.mk (mkPhcChars (sanitizeChars salt.data)
        (kdfChars password.data (sanitizeChars salt.data)))).data
        = mkPhcChars (sanitizeChars salt.data)
            (kdfChars password.data (sanitizeChars salt.data)) := rfl
    rw [this, parsePhcChars_mkPhcChars _ _ (sanitizeChars_not_mem_dollar _)
      (kdfChars_not_mem_dollar _ _)]
    simp

theorem find?_append_none {α : Type} (p : α → Bool) (l₁ l₂ : List α)
    (h : l₁.find? p = none) : (l₁ ++ l₂).find? p = l₂.find? p := by
  rw [List.find?_append, h, Option.none_or]

/-! ## Claim theorems -/

/-- C8: `hash_password` fails with `EmptyPassword` on the empty password, and
`Manager::create` fails with `EmptyUsername` on an empty name for *every*
password (including the empty one), because the empty-name check precedes
password hashing; in particular `create("", "", _)` yields `EmptyUsername`. -/
theorem create_empty_checks (salt : String) (m : Manager) (pw : String) (adm : Bool) :
    hash_password "" salt = .error .EmptyPassword ∧
    m.create ⟨"", pw, adm⟩ salt = .error .EmptyUsername :=
  ⟨rfl, rfl⟩

/-- C9: `verify_password` is a total boolean function; when the stored hash
string is malformed (fails to parse), it returns `false` rather than
raising. -/
theorem verify_malformed_hash_false (s p : String)
    (h : parsePasswordHash s = none) : verify_password s p = false := by
  rw [verify_password, h]

/-- Witness for C9 at the malformed stored hash `"garbage"`. -/
theorem verify_malformed_hash_false_witness :
    parsePasswordHash "garbage" = none ∧ verify_password "garbage" "x" = false :=
  ⟨rfl, verify_malformed_hash_false "garbage" "x" rfl⟩

/-- C4: the scope → TTL table maps `PolarisAuth` (SessionAuth) to 0 and
`LastFMLink` (LinkAuth) to 600 seconds; decoding a `LastFMLink` token more
than 600 seconds after issuance fails with `InvalidAuthToken`; and decoding
under `PolarisAuth` is independent of the current time (a session token
never expires). -/
theorem scope_ttl_policy (m : Manager) (tok : AuthToken) (t now now2 : Nat)
    (p : Payload) :
    scopeTTL .PolarisAuth = 0 ∧
    scopeTTL .LastFMLink = 600 ∧
    (now - t > 600 →
      m.decode_auth_token ⟨.valid m.key t p⟩ .LastFMLink now
        = .error .InvalidAuthToken) ∧
    m.decode_auth_token tok .PolarisAuth now
      = m.decode_auth_token tok .PolarisAuth now2 := by
  refine ⟨rfl, rfl, ?_, ?_⟩
  · intro h
    simp [Manager.decode_auth_token, brancaDecode, scopeTTL, h]
  · obtain ⟨d⟩ := tok
    cases d with
    | garbage s => rfl
    | valid k t' p' =>
      simp [Manager.decode_auth_token, brancaDecode, scopeTTL]

/-- Witness for C4: an expired `LastFMLink` decode at a concrete input. -/
theorem scope_ttl_policy_witness :
    (Manager.mk [] 0).decode_auth_token
        ⟨.valid 0 0 (.auth ⟨"alice", .LastFMLink⟩)⟩ .LastFMLink 601
      = .error .InvalidAuthToken :=
  (scope_ttl_policy ⟨[], 0⟩ ⟨.garbage ""⟩ 0 601 0
    (.auth ⟨"alice", .LastFMLink⟩)).2.2.1 (by decide)

/-- C10: the TTL enforced by `authenticate` comes from the caller-supplied
expected scope, not from the scope embedded in the token: a `LastFMLink`
token presented with expected scope `PolarisAuth` is decoded with TTL 0, so
even more than 600 seconds after issuance it fails with
`IncorrectAuthorizationScope` rather than `InvalidAuthToken`. -/
theorem authenticate_ttl_from_expected_scope (m : Manager) (u : String)
    (t now : Nat) (_h : now - t > 600) :
    m.authenticate ⟨.valid m.key t (.auth ⟨u, .LastFMLink⟩)⟩ .PolarisAuth now
      = .error .IncorrectAuthorizationScope := by
  simp [Manager.authenticate, Manager.decode_auth_token, brancaDecode,
    scopeTTL, serdeFromSlice]

/-- Witness for C10 at a concrete expired-link-token input. -/
theorem authenticate_ttl_from_expected_scope_witness :
    (Manager.mk [] 0).authenticate
        ⟨.valid 0 0 (.auth ⟨"alice", .LastFMLink⟩)⟩ .PolarisAuth 601
      = .error .IncorrectAuthorizationScope :=
  authenticate_ttl_from_expected_scope ⟨[], 0⟩ "alice" 0 601 (by decide)

/-- C5: `login` fails with `IncorrectUsername` when no row named `username`
exists, fails with `IncorrectPassword` when the row exists but verification
against its stored hash returns `false`, and issues a token only when
verification succeeds. -/
theorem login_error_cases (m : Manager) (username password : String) (now : Nat) :
    (m.users.find? (fun u => u.name == username) = none →
      m.login username password now = .error .IncorrectUsername) ∧
    (∀ u, m.users.find? (fun u => u.name == username) = some u →
      verify_password u.password_hash password = false →
      m.login username password now = .error .IncorrectPassword) ∧
    (∀ tok, m.login username password now = .ok tok →
      ∃ u, m.users.find? (fun u => u.name == username) = some u ∧
        verify_password u.password_hash password = true) := by
  refine ⟨?_, ?_, ?_⟩
  · intro h
    rw [Manager.login, h]
  · intro u hu hv
    rw [Manager.login]
    simp only [hu, hv]
    rfl
  · intro tok h
    unfold Manager.login at h
    split at h
    · cases h
    · rename_i u hu
      split at h
      · rename_i hv
        exact ⟨u, hu, hv⟩
      · cases h

/-- Witness for C5: a nonexistent account yields `IncorrectUsername`; an
existing account with a non-matching stored hash yields `IncorrectPassword`. -/
theorem login_error_cases_witness :
    (Manager.mk [] 0).login "alice" "pw" 0 = .error .IncorrectUsername ∧
    (Manager.mk [⟨"alice", "nothash", 0⟩] 0).login "alice" "pw" 0
      = .error .IncorrectPassword :=
  ⟨(login_error_cases ⟨[], 0⟩ "alice" "pw" 0).1 rfl,
   (login_error_cases ⟨[⟨"alice", "nothash", 0⟩], 0⟩ "alice" "pw" 0).2.1
     ⟨"alice", "nothash", 0⟩ (by decide) (by decide)⟩

/-- C7: every decode failure — a corrupted/garbage token, a token under the
wrong key, a payload that fails deserialization, and an expired token — is
reported as the single error kind `InvalidAuthToken`; and `decode_auth_token`
never returns any error besides `InvalidAuthToken` and the post-decode
`IncorrectAuthorizationScope`. -/
theorem decode_failures_undifferentiated (m : Manager)
    (scope : AuthorizationScope) (now : Nat) :
    (∀ s, m.decode_auth_token ⟨.garbage s⟩ scope now = .error .InvalidAuthToken) ∧
    (∀ k t p, k ≠ m.key →
      m.decode_auth_token ⟨.valid k t p⟩ scope now = .error .InvalidAuthToken) ∧
    (∀ t s, m.decode_auth_token ⟨.valid m.key t (.malformed s)⟩ scope now
      = .error .InvalidAuthToken) ∧
    (∀ t p, scopeTTL scope ≠ 0 → now - t > scopeTTL scope →
      m.decode_auth_token ⟨.valid m.key t p⟩ scope now = .error .InvalidAuthToken) ∧
    (∀ tok e, m.decode_auth_token tok scope now = .error e →
      e = .InvalidAuthToken ∨ e = .IncorrectAuthorizationScope) := by
  refine ⟨?_, ?_, ?_, ?_, ?_⟩
  · intro s
    rfl
  · intro k t p hk
    simp [Manager.decode_auth_token, brancaDecode, hk]
  · intro t s
    by_cases hexp : scopeTTL scope ≠ 0 ∧ now - t > scopeTTL scope
    · simp [Manager.decode_auth_token, brancaDecode, hexp]
    · simp [Manager.decode_auth_token, brancaDecode, hexp, serdeFromSlice]
  · intro t p h0 hexp
    simp [Manager.decode_auth_token, brancaDecode, h0, hexp]
  · intro tok e h
    unfold Manager.decode_auth_token at h
    dsimp only at h
    split at h
    · injection h with h
      exact Or.inl h.symm
    · split at h
      · injection h with h
        exact Or.inl h.symm
      · split at h
        · injection h with h
          exact Or.inr h.symm
        · cases h

/-- Witness for C7: a wrong-key token and an expired link token, both at
concrete inputs, each fail with `InvalidAuthToken`. -/
theorem decode_failures_undifferentiated_witness :
    (Manager.mk [] 5).decode_auth_token
        ⟨.valid 3 0 (.auth ⟨"a", .PolarisAuth⟩)⟩ .PolarisAuth 0
      = .error .InvalidAuthToken ∧
    (Manager.mk [] 5).decode_auth_token
        ⟨.valid 5 0 (.auth ⟨"a", .LastFMLink⟩)⟩ .LastFMLink 601
      = .error .InvalidAuthToken :=
  ⟨(decode_failures_undifferentiated ⟨[], 5⟩ .PolarisAuth 0).2.1 3 0
      (.auth ⟨"a", .PolarisAuth⟩) (by decide),
   (decode_failures_undifferentiated ⟨[], 5⟩ .LastFMLink 601).2.2.2.1 0
      (.auth ⟨"a", .LastFMLink⟩) (by decide) (by decide)⟩

/-- C6: while the user count is zero the admin guard grants administrator
rights to any caller, token or not; once at least one account exists it
succeeds exactly for an authenticated identity whose account has the admin
flag set (so an unauthenticated caller and a non-admin caller are both
refused). -/
theorem admin_bootstrap_policy (m : Manager) (su : Option String) :
    (m.users = [] → adminRightsFromRequest m su = .success) ∧
    (m.users ≠ [] →
      (adminRightsFromRequest m su = .success ↔
        ∃ u, su = some u ∧ m.is_admin u = .ok true)) := by
  constructor
  · intro h
    simp [adminRightsFromRequest, Manager.count, h]
  · intro h
    have hc : ¬(m.count = 0) := by
      simp only [Manager.count, Int.natCast_eq_zero, List.length_eq_zero]
      exact h
    unfold adminRightsFromRequest
    rw [if_neg hc]
    cases su with
    | none => simp
    | some username =>
      cases hia : m.is_admin username with
      | error e => simp [hia]
      | ok b =>
        cases b with
        | true => simp [hia]
        | false => simp [hia]

/-- Witness for C6: the empty store grants admin rights to a caller with no
session; a one-user store makes the grant equivalent to the caller's admin
flag being set (here: refused, since "bob" is not an admin). -/
theorem admin_bootstrap_policy_witness :
    adminRightsFromRequest ⟨[], 0⟩ none = .success ∧
    (adminRightsFromRequest ⟨[⟨"bob", "h", 0⟩], 0⟩ (some "bob") = .success ↔
      ∃ u, some "bob" = some u ∧
        (Manager.mk [⟨"bob", "h", 0⟩] 0).is_admin u = .ok true) :=
  ⟨(admin_bootstrap_policy ⟨[], 0⟩ none).1 rfl,
   (admin_bootstrap_policy ⟨[⟨"bob", "h", 0⟩], 0⟩ (some "bob")).2 (by simp)⟩

/-- C2: `authenticate` re-queries current account existence on every call, so
deleting an account revokes its outstanding tokens: whenever a token
authorizes as `a`, the account `a.username` currently exists, and after
`delete(a.username)` the very same `authenticate` call fails with
`IncorrectUsername`. -/
theorem delete_revokes_tokens (m : Manager) (tok : AuthToken)
    (scope : AuthorizationScope) (now : Nat) (a : Authorization)
    (h : m.authenticate tok scope now = .ok a) :
    m.exists a.username = .ok true ∧
    (m.delete a.username).authenticate tok scope now
      = .error .IncorrectUsername := by
  unfold Manager.authenticate at h
  split at h
  · cases h
  · rename_i authz hd
    split at h
    · cases h
    · rename_i hex
      injection h with h'
      subst h'
      refine ⟨hex, ?_⟩
      have hd' : (m.delete authz.username).decode_auth_token tok scope now
          = .ok authz := hd
      have hex' : (m.delete authz.username).exists authz.username = .ok false := by
        unfold Manager.exists Manager.delete
        simp [List.filter_filter]
      unfold Manager.authenticate
      simp only [hd', hex']
    · cases h

/-- Witness for C2: a valid token for "alice" authorizes before the deletion
and fails with `IncorrectUsername` after it. -/
theorem delete_revokes_tokens_witness :
    (Manager.mk [⟨"alice", "h", 0⟩] 7).exists
        (Authorization.mk "alice" .PolarisAuth).username = .ok true ∧
    ((Manager.mk [⟨"alice", "h", 0⟩] 7).delete
        (Authorization.mk "alice" .PolarisAuth).username).authenticate
        ⟨.valid 7 0 (.auth ⟨"alice", .PolarisAuth⟩)⟩ .PolarisAuth 0
      = .error .IncorrectUsername :=
  delete_revokes_tokens ⟨[⟨"alice", "h", 0⟩], 7⟩
    ⟨.valid 7 0 (.auth ⟨"alice", .PolarisAuth⟩)⟩ .PolarisAuth 0
    ⟨"alice", .PolarisAuth⟩ rfl

/-- Counterexample to C3 as stated: a token embedding scope `PolarisAuth`
(SessionAuth), presented under expected scope `LastFMLink` (LinkAuth) 601
seconds after issuance, fails with `InvalidAuthToken` — not with
`IncorrectAuthorizationScope` as the claim requires — because the expected
scope's 600-second TTL is checked during decoding, before the scope
comparison. -/
theorem scope_mismatch_counterexample :
    (Manager.mk [⟨"alice", "h", 0⟩] 0).authenticate
        ⟨.valid 0 0 (.auth ⟨"alice", .PolarisAuth⟩)⟩ .LastFMLink 601
      = .error .InvalidAuthToken ∧
    Error.InvalidAuthToken ≠ Error.IncorrectAuthorizationScope :=
  ⟨rfl, by decide⟩

theorem authenticate_ok_decode_ok (m : Manager) (tok : AuthToken)
    (scope : AuthorizationScope) (now : Nat) (a : Authorization)
    (h : m.authenticate tok scope now = .ok a) :
    m.decode_auth_token tok scope now = .ok a := by
  unfold Manager.authenticate at h
  split at h
  · cases h
  · rename_i authz hd
    split at h
    · cases h
    · injection h with h'
      subst h'
      exact hd
    · cases h

theorem decode_ok_inversion (m : Manager) (tok : AuthToken)
    (scope : AuthorizationScope) (now : Nat) (a : Authorization)
    (h : m.decode_auth_token tok scope now = .ok a) :
    a.scope = scope ∧ ∃ t, tok.data = .valid m.key t (.auth a) := by
  obtain ⟨d⟩ := tok
  cases d with
  | garbage s =>
    simp [Manager.decode_auth_token, brancaDecode] at h
  | valid k t p =>
    by_cases hk : k = m.key
    · subst hk
      by_cases hexp : scopeTTL scope ≠ 0 ∧ now - t > scopeTTL scope
      · simp [Manager.decode_auth_token, brancaDecode, hexp] at h
      · cases p with
        | malformed s =>
          simp [Manager.decode_auth_token, brancaDecode, hexp, serdeFromSlice] at h
        | auth a' =>
          by_cases hsc : a'.scope ≠ scope
          · simp [Manager.decode_auth_token, brancaDecode, hexp,
              serdeFromSlice, hsc] at h
          · simp [Manager.decode_auth_token, brancaDecode, hexp,
              serdeFromSlice, hsc] at h
            subst h
            rw [not_not] at hsc
            exact ⟨hsc, t, rfl⟩
    · simp [Manager.decode_auth_token, brancaDecode, hk] at h

/-- C3 (amended): a token whose embedded authorization carries scope `es`,
presented under an expected scope `scope ≠ es`, always fails — with
`IncorrectAuthorizationScope` whenever decoding succeeds (in particular
whenever the key matches and the expected scope's TTL has not elapsed), and
with `InvalidAuthToken` when decoding itself fails (wrong key or elapsed
TTL). Moreover a token is only ever accepted under its embedded scope: an
`.ok` result implies the token is an authentic ciphertext under the
manager's key embedding exactly the returned authorization, whose scope is
the expected one. -/
theorem scope_mismatch_amended (m : Manager) (tok : AuthToken)
    (scope : AuthorizationScope) (now : Nat) :
    (∀ k t u es, es ≠ scope → tok.data = .valid k t (.auth ⟨u, es⟩) →
      (m.authenticate tok scope now = .error .IncorrectAuthorizationScope ∨
       m.authenticate tok scope now = .error .InvalidAuthToken) ∧
      (k = m.key → ¬(scopeTTL scope ≠ 0 ∧ now - t > scopeTTL scope) →
        m.authenticate tok scope now = .error .IncorrectAuthorizationScope)) ∧
    (∀ a, m.authenticate tok scope now = .ok a →
      a.scope = scope ∧ ∃ t, tok.data = .valid m.key t (.auth a)) := by
  constructor
  · intro k t u es hes hdata
    obtain ⟨d⟩ := tok
    cases hdata
    constructor
    · by_cases hk : k = m.key
      · subst hk
        by_cases hexp : scopeTTL scope ≠ 0 ∧ now - t > scopeTTL scope
        · right
          simp [Manager.authenticate, Manager.decode_auth_token, brancaDecode, hexp]
        · left
          simp [Manager.authenticate, Manager.decode_auth_token, brancaDecode,
            hexp, serdeFromSlice, hes]
      · right
        simp [Manager.authenticate, Manager.decode_auth_token, brancaDecode, hk]
    · intro hk hexp
      subst hk
      simp [Manager.authenticate, Manager.decode_auth_token, brancaDecode,
        hexp, serdeFromSlice, hes]
  · intro a h
    exact decode_ok_inversion m tok scope now a
      (authenticate_ok_decode_ok m tok scope now a h)

/-- Witness for C3 (amended): a `LastFMLink` token presented under
`PolarisAuth` with matching key and unexpired (zero) TTL fails with
`IncorrectAuthorizationScope` at a concrete input. -/
theorem scope_mismatch_amended_witness :
    (Manager.mk [] 3).authenticate
        ⟨.valid 3 5 (.auth ⟨"alice", .LastFMLink⟩)⟩ .PolarisAuth 9999
      = .error .IncorrectAuthorizationScope :=
  ((scope_mismatch_amended ⟨[], 3⟩ ⟨.valid 3 5 (.auth ⟨"alice", .LastFMLink⟩)⟩
      .PolarisAuth 9999).1 3 5 "alice" .LastFMLink (by decide) rfl).2
    rfl (by decide)

/-- C1: for every non-empty name and password, creating the account on a
store that does not contain the name succeeds, `login(name, password)` then
succeeds and returns a token that `authenticate(token, PolarisAuth)`
(the spec's `authorize(token, SessionAuth)`) accepts — at any later time —
with an authorization whose identity equals the name. -/
theorem create_login_authorize (m : Manager) (name password salt : String)
    (adm : Bool) (now now2 : Nat)
    (hn : name ≠ "") (hp : password ≠ "")
    (hfresh : ∀ u ∈ m.users, u.name ≠ name) :
    ∃ m' tok a,
      m.create ⟨name, password, adm⟩ salt = .ok m' ∧
      m'.login name password now = .ok tok ∧
      m'.authenticate tok .PolarisAuth now2 = .ok a ∧
      a.username = name := by
  have hn' : ¬(name.isEmpty = true) := by
    simpa [String.isEmpty_iff] using hn
  have hp' : ¬(password.isEmpty = true) := by
    simpa [String.isEmpty_iff] using hp
  obtain ⟨hhash, hverify⟩ := verify_password_hash_password password salt hp'
  refine ⟨⟨m.users ++
      [⟨name,
        ⟨mkPhcChars (sanitizeChars salt.data)
          (kdfChars password.data (sanitizeChars salt.data))⟩,
        if adm then 1 else 0⟩], m.key⟩,
    ⟨.valid m.key (now % 4294967296) (.auth ⟨name, .PolarisAuth⟩)⟩,
    ⟨name, .PolarisAuth⟩, ?_, ?_, ?_, rfl⟩
  · have hany : m.users.any (fun u => u.name == name) = false := by
      rw [List.any_eq_false]
      intro u hu
      simpa using hfresh u hu
    simp only [Manager.create]
    rw [if_neg hn', hhash]
    simp only [hany, Bool.false_eq_true, if_false]
  · have hfind : (m.users ++
        [(⟨name,
          ⟨mkPhcChars (sanitizeChars salt.data)
            (kdfChars password.data (sanitizeChars salt.data))⟩,
          if adm then 1 else 0⟩ : User)]).find? (fun u => u.name == name)
        = some ⟨name,
            ⟨mkPhcChars (sanitizeChars salt.data)
              (kdfChars password.data (sanitizeChars salt.data))⟩,
            if adm then 1 else 0⟩ := by
      rw [find?_append_none]
      · exact List.find?_cons_of_pos _ (by simp)
      · rw [List.find?_eq_none]
        intro u hu
        simpa using hfresh u hu
    simp only [Manager.login, hfind]
    rw [if_pos hverify]
    rfl
  · have hdec : (Manager.mk (m.users ++
        [⟨name,
          ⟨mkPhcChars (sanitizeChars salt.data)
            (kdfChars password.data (sanitizeChars salt.data))⟩,
          if adm then 1 else 0⟩]) m.key).decode_auth_token
        ⟨.valid m.key (now % 4294967296) (.auth ⟨name, .PolarisAuth⟩)⟩
        .PolarisAuth now2 = .ok ⟨name, .PolarisAuth⟩ := by
      simp [Manager.decode_auth_token, brancaDecode, scopeTTL, serdeFromSlice]
    have hex : (Manager.mk (m.users ++
        [⟨name,
          ⟨mkPhcChars (sanitizeChars salt.data)
            (kdfChars password.data (sanitizeChars salt.data))⟩,
          if adm then 1 else 0⟩]) m.key).exists name = .ok true := by
      unfold Manager.exists
      simp [List.filter_append]
    unfold Manager.authenticate
    simp only [hdec, hex]

/-- Witness for C1 at a concrete fresh store, name, password and salt. -/
theorem create_login_authorize_witness :
    ∃ m' tok a,
      (Manager.mk [] 0).create ⟨"alice", "pw", false⟩ "s" = .ok m' ∧
      m'.login "alice" "pw" 0 = .ok tok ∧
      m'.authenticate tok .PolarisAuth 5 = .ok a ∧
      a.username = "alice" :=
  create_login_authorize ⟨[], 0⟩ "alice" "pw" "s" false 0 5
    (by decide) (by decide) (by simp)
